import Mathlib

set_option maxRecDepth 4000

/-!
Verification development for the FLICA crew-schedule extraction core.

The repository contains two implementations of the same extraction logic:
a server-side parser over a cheerio tree (`server/src/scraper/parser.ts`)
and a sandboxed WebView parser produced as a script string
(`apps/mobile/src/parsers/scheduleParser.ts`).  Both are shallowly embedded
below over a common abstract markup-tree model (`Node`), with JavaScript
string, number and regular-expression semantics modelled explicitly.
-/

namespace CrewSched

/-! ## JavaScript string and number primitives -/

/-- The whitespace characters relevant here (the ASCII members of the
ECMAScript whitespace class plus NBSP). -/
def jsSpaceChars : List Char := [' ', '\t', '\n', '\r', '\x0b', '\x0c', '\u00A0']

def isJsSpace (c : Char) : Bool := jsSpaceChars.contains c

/-- JavaScript `String.prototype.trim` (also the WebView script's `trim`):
strip leading and trailing whitespace. -/
def jsTrim (s : String) : String :=
  String.mk (((s.data.dropWhile isJsSpace).reverse.dropWhile isJsSpace).reverse)

/-- `pre.isPrefixOf l` test specialised to `Char`. -/
def isPrefixList : List Char → List Char → Bool
  | [], _ => true
  | _ :: _, [] => false
  | a :: as, b :: bs => a == b && isPrefixList as bs

def hasSubList (pat : List Char) : List Char → Bool
  | [] => pat.isEmpty
  | c :: rest => isPrefixList pat (c :: rest) || hasSubList pat rest

/-- JavaScript `s.includes(pat)` / `s.indexOf(pat) >= 0`. -/
def strHasSub (s pat : String) : Bool := hasSubList pat.data s.data

/-- JavaScript `s.startsWith(pre)` / `s.charAt(0) === pre` for our uses. -/
def strStartsWith (s pre : String) : Bool := isPrefixList pre.data s.data

/-- JavaScript `s.toLowerCase()` (ASCII). -/
def strToLower (s : String) : String := String.mk (s.data.map Char.toLower)

def splitPredAux (p : Char → Bool) : List Char → List Char → List String
  | [], acc => [String.mk acc.reverse]
  | c :: rest, acc =>
    if p c then String.mk acc.reverse :: splitPredAux p rest []
    else splitPredAux p rest (c :: acc)

/-- Split a string at every character satisfying `p` (separators dropped;
empty segments kept, as JavaScript `split` does). -/
def strSplitPred (s : String) (p : Char → Bool) : List String :=
  splitPredAux p s.data []

/-- JavaScript `s.split(sep)` for a one-character separator. -/
def strSplitChar (s : String) (sep : Char) : List String :=
  strSplitPred s (fun c => c == sep)

def digitsVal (ds : List Char) : Nat :=
  ds.foldl (fun a c => a * 10 + (c.toNat - '0'.toNat)) 0

/-- JavaScript `parseInt(s, 10)`: skip whitespace, optional sign, then a
maximal digit prefix; `none` models `NaN`. -/
def jsParseInt (s : String) : Option Int :=
  let cs := s.data.dropWhile isJsSpace
  let sign : Int := match cs with
    | '-' :: _ => -1
    | _ => 1
  let cs1 := match cs with
    | '-' :: rest => rest
    | '+' :: rest => rest
    | _ => cs
  let ds := cs1.takeWhile Char.isDigit
  if ds.isEmpty then none else some (sign * (digitsVal ds : Int))

/-- JavaScript `parseFloat(s)` on finite decimal/exponent literals, with the
value represented exactly as a rational; `none` models `NaN`.
(The `Infinity` keyword is not modelled.) -/
def jsParseFloat (s : String) : Option ℚ :=
  let cs := s.data.dropWhile isJsSpace
  let sign : Int := match cs with
    | '-' :: _ => -1
    | _ => 1
  let cs1 := match cs with
    | '-' :: rest => rest
    | '+' :: rest => rest
    | _ => cs
  let ipart := cs1.takeWhile Char.isDigit
  let cs2 := cs1.dropWhile Char.isDigit
  let fpart := match cs2 with
    | '.' :: rest => rest.takeWhile Char.isDigit
    | _ => []
  let cs3 := match cs2 with
    | '.' :: rest => rest.dropWhile Char.isDigit
    | _ => cs2
  if ipart.isEmpty && fpart.isEmpty then none
  else
    let expv : Int := match cs3 with
      | e :: rest =>
        if e == 'e' || e == 'E' then
          let esign : Int := match rest with
            | '-' :: _ => -1
            | _ => 1
          let rest2 := match rest with
            | '-' :: r => r
            | '+' :: r => r
            | _ => rest
          let eds := rest2.takeWhile Char.isDigit
          if eds.isEmpty then 0 else esign * (digitsVal eds : Int)
        else 0
      | [] => 0
    let mantNum : Int := sign * (digitsVal ipart * 10 ^ fpart.length + digitsVal fpart)
    if 0 ≤ expv then
      some (mkRat (mantNum * 10 ^ expv.toNat) (10 ^ fpart.length))
    else
      some (mkRat mantNum (10 ^ fpart.length * 10 ^ (-expv).toNat))

/-- `String(n).padStart(2, '0')` as used by the server parser. -/
def padStart2 (s : String) : String :=
  if s.length < 2 then String.mk (List.replicate (2 - s.length) '0') ++ s else s

/-- The WebView script's `pad2`: `n < 10 ? '0' + n : '' + n`. -/
def pad2 (n : Int) : String := if n < 10 then "0" ++ toString n else toString n

/-- JavaScript `!==` on numbers that may be `NaN` (`none`): `NaN` is unequal
to everything, including itself. -/
def jsNumNe : Option Int → Option Int → Bool
  | some a, some b => a != b
  | _, _ => true

/-! ## A small backtracking regular-expression engine

Just enough of ECMAScript regexp semantics for the patterns appearing in the
two parsers: character classes, sequencing, bounded/unbounded greedy and lazy
repetition, capture groups, and the `^` / `$` anchors. -/

inductive RE where
  | eps : RE
  | cls : (Char → Bool) → RE
  | seq : RE → RE → RE
  | rep : RE → Nat → Option Nat → Bool → RE
  | grp : Nat → RE → RE
  | bol : RE
  | eol : RE
  | eolM : RE

def isLineTerm (c : Char) : Bool :=
  c == '\n' || c == '\r' || c == '\u2028' || c == '\u2029'

def subStr (cs : List Char) (i j : Nat) : String :=
  String.mk ((cs.drop i).take (j - i))

/-- Continuation-passing backtracking matcher.  `fuel` bounds the total number
of steps; it is chosen generously enough for the near-deterministic patterns
used by the parsers. -/
def reM : Nat → RE → List Char → Nat → List (Nat × String) →
    (Nat → List (Nat × String) → Option (List (Nat × String))) →
    Option (List (Nat × String))
  | 0, _, _, _, _, _ => none
  | fuel + 1, re, s, pos, caps, k =>
    match re with
    | .eps => k pos caps
    | .bol => if pos == 0 then k pos caps else none
    | .eol => if pos == s.length then k pos caps else none
    | .eolM =>
      if pos == s.length then k pos caps
      else
        match s[pos]? with
        | some c => if isLineTerm c then k pos caps else none
        | none => none
    | .cls p =>
      match s[pos]? with
      | some c => if p c then k (pos + 1) caps else none
      | none => none
    | .seq a b => reM fuel a s pos caps (fun p c => reM fuel b s p c k)
    | .grp i a => reM fuel a s pos caps (fun p c => k p ((i, subStr s pos p) :: c))
    | .rep a mn mx lz =>
      if mn > 0 then
        reM fuel a s pos caps
          (fun p c => reM fuel (.rep a (mn - 1) (mx.map (· - 1)) lz) s p c k)
      else if mx == some 0 then
        k pos caps
      else if lz then
        match k pos caps with
        | some r => some r
        | none =>
          reM fuel a s pos caps
            (fun p c => reM fuel (.rep a 0 (mx.map (· - 1)) lz) s p c k)
      else
        match reM fuel a s pos caps
            (fun p c => reM fuel (.rep a 0 (mx.map (· - 1)) lz) s p c k) with
        | some r => some r
        | none => k pos caps

def reFuel (s : String) : Nat := 8 * (s.length + 2) * (s.length + 2) + 200

/-- Try to match `re` at position `i`; on success return the capture list,
with group 0 bound to the whole matched substring. -/
def reMatchAt (re : RE) (s : String) (i : Nat) : Option (List (Nat × String)) :=
  reM (reFuel s) re s.data i [] (fun p c => some ((0, subStr s.data i p) :: c))

def reFindFrom (re : RE) (s : String) : Nat → Nat → Option (List (Nat × String))
  | _, 0 => none
  | i, n + 1 =>
    match reMatchAt re s i with
    | some caps => some caps
    | none => reFindFrom re s (i + 1) n

/-- JavaScript `s.match(re)` without the `g` flag: the leftmost match. -/
def reFind (re : RE) (s : String) : Option (List (Nat × String)) :=
  reFindFrom re s 0 (s.length + 1)

/-- JavaScript `re.test(s)`. -/
def reTest (re : RE) (s : String) : Bool := (reFind re s).isSome

/-- Read capture group `i` out of a match result. -/
def cap (caps : List (Nat × String)) (i : Nat) : String :=
  match caps.lookup i with
  | some v => v
  | none => ""

/-! Pattern combinators mirroring the regex literals of the source. -/

def rlit (str : String) : RE :=
  (str.data.map (fun c => RE.cls (fun ch => ch == c))).foldr RE.seq RE.eps

def rlitCI (str : String) : RE :=
  (str.data.map (fun c => RE.cls (fun ch => ch.toLower == c.toLower))).foldr RE.seq RE.eps

def rW : RE := RE.cls (fun c => c.isAlphanum || c == '_')
def rS : RE := RE.cls isJsSpace
def rD : RE := RE.cls Char.isDigit
def rU : RE := RE.cls Char.isUpper
def rDot : RE := RE.cls (fun c => !isLineTerm c)
def rplus (r : RE) : RE := .rep r 1 none false
def rstar (r : RE) : RE := .rep r 0 none false
def rexact (r : RE) (n : Nat) : RE := .rep r n (some n) false
def ropt (r : RE) : RE := .rep r 0 (some 1) false
def rseq (l : List RE) : RE := l.foldr RE.seq RE.eps

/-! ## The markup-tree model

The Document Loader collaborator: a navigable tree of elements with tag
name, attributes, text content and children (spec §6).  Both parsers operate
on the same kind of tree (cheerio on the server, the live DOM in the
WebView); element selection is modelled over preorder (= document-order)
traversal. -/

inductive Node where
  | elem (tag : String) (attrs : List (String × String)) (children : List Node) : Node
  | text (s : String) : Node

mutual

/-- Concatenated text of all text nodes below (and at) a node:
cheerio `.text()` / DOM `textContent`. -/
def textContent : Node → String
  | .text s => s
  | .elem _ _ cs => textContentList cs

def textContentList : List Node → String
  | [] => ""
  | c :: cs => textContent c ++ textContentList cs

end

mutual

/-- All element descendants of a node, in document (preorder) order,
excluding the node itself. -/
def descendants : Node → List Node
  | .text _ => []
  | .elem _ _ cs => descList cs

def descList : List Node → List Node
  | [] => []
  | c :: cs => selfDesc c ++ descList cs

def selfDesc : Node → List Node
  | .text _ => []
  | .elem t a cs => .elem t a cs :: descList cs

end

mutual

/-- Structural equality of nodes (standing in for DOM node identity; exact
whenever the document has no two structurally identical subtrees). -/
def nodeBeq : Node → Node → Bool
  | .text a, .text b => a == b
  | .elem t1 a1 c1, .elem t2 a2 c2 => t1 == t2 && a1 == a2 && nodesBeq c1 c2
  | _, _ => false

def nodesBeq : List Node → List Node → Bool
  | [], [] => true
  | x :: xs, y :: ys => nodeBeq x y && nodesBeq xs ys
  | _, _ => false

end

def attrOf : Node → String → Option String
  | .elem _ attrs _, name => attrs.lookup name
  | .text _, _ => none

def tagOf : Node → String
  | .elem t _ _ => t
  | .text _ => ""

def tagIs (t : String) (n : Node) : Bool := tagOf n == t

def childNodes : Node → List Node
  | .elem _ _ cs => cs
  | .text _ => []

/-- Element children with a given tag (`element.children(tag)` /
`:scope > tag`). -/
def childElemsTagged (n : Node) (t : String) : List Node :=
  (childNodes n).filter (tagIs t)

/-- Element descendants with a given tag (`el.find(tag)` /
`el.querySelectorAll(tag)`). -/
def descTagged (n : Node) (t : String) : List Node :=
  (descendants n).filter (tagIs t)

/-- The space-separated class list of an element. -/
def classList (n : Node) : List String :=
  (strSplitPred ((attrOf n "class").getD "") isJsSpace).filter (fun s => s != "")

def hasClass (n : Node) (c : String) : Bool := (classList n).contains c

/-- All `td` cells below a row. -/
def tds (row : Node) : List Node := descTagged row "td"

/-- `$(cells[i]).text()` (cheerio: an out-of-range index yields the empty
selection whose text is `""`) / the WebView script's
`cells[i] ? cells[i].textContent : ''`. -/
def cellText (cells : List Node) (i : Nat) : String :=
  match cells[i]? with
  | some c => textContent c
  | none => ""

/-! ## The shared data model (packages/shared/src/types.ts) -/

structure FlightLeg where
  dayOfWeek : String
  dayOfMonth : Option Int
  isDeadhead : Bool
  positionCode : String
  flightNumber : String
  origin : String
  destination : String
  departureLocal : String
  arrivalLocal : String
  blockTime : String
  groundTime : String
deriving DecidableEq, Repr

structure Layover where
  airport : String
  restTime : String
  hotelName : String
  hotelPhone : String
  dutyEndLocal : String
  reportLocal : String
deriving DecidableEq, Repr

structure DutyPeriod where
  legs : List FlightLeg
  totalBlock : String
  totalDeadhead : String
  totalCredit : String
  totalDutyFdp : String
  layover : Option Layover
deriving DecidableEq, Repr

structure CrewMember where
  position : String
  employeeNumber : String
  name : String
deriving DecidableEq, Repr

structure TripTotals where
  block : String
  deadhead : String
  credit : String
  dutyFdp : String
deriving DecidableEq, Repr

structure Trip where
  tripNumber : String
  dateStr : String
  date : String
  frequency : String
  baseReportTime : String
  operatingDates : String
  base : String
  equipment : String
  crewComposition : String
  exceptions : String
  dutyPeriods : List DutyPeriod
  tafb : String
  tripRig : String
  totals : TripTotals
  crew : List CrewMember
deriving DecidableEq, Repr

structure ScheduleSummary where
  block : ℚ
  credit : ℚ
  ytd : ℚ
  daysOff : ℚ
deriving DecidableEq, Repr

/-- The month-abbreviation table shared by both implementations. -/
def MONTH_MAP : List (String × Int) :=
  [("JAN", 1), ("FEB", 2), ("MAR", 3), ("APR", 4), ("MAY", 5), ("JUN", 6),
   ("JUL", 7), ("AUG", 8), ("SEP", 9), ("OCT", 10), ("NOV", 11), ("DEC", 12)]

def monthMapLookup (s : String) : Option Int := MONTH_MAP.lookup s

namespace Pat

/-- `/^(O\d+)\s*:\s*(\d{2}[A-Z]{3})/` -/
def tripHeadRe : RE :=
  rseq [.bol, .grp 1 (rseq [rlit "O", rplus rD]), rstar rS, rlit ":", rstar rS,
    .grp 2 (rseq [rexact rD 2, rexact rU 3])]

/-- `/BSE REPT:\s*(\d{4}L?)/` -/
def bseReptRe : RE :=
  rseq [rlit "BSE REPT:", rstar rS, .grp 1 (rseq [rexact rD 4, ropt (RE.cls (fun c => c == 'L'))])]

/-- `/Operates:\s*(.+)/` -/
def operatesRe : RE := rseq [rlit "Operates:", rstar rS, .grp 1 (rplus rDot)]

/-- `/Base\/Equip:\s*(\w+)\/(\w+)/` -/
def baseEquipRe : RE :=
  rseq [rlit "Base/Equip:", rstar rS, .grp 1 (rplus rW), rlit "/", .grp 2 (rplus rW)]

/-- `/^EXCEPT ON\s*/i` -/
def exceptRe : RE := rseq [.bol, rlitCI "EXCEPT ON", rstar rS]

/-- `/T\.A\.F\.B\.:\s*(\d+)/` -/
def tafbRe : RE := rseq [rlit "T.A.F.B.:", rstar rS, .grp 1 (rplus rD)]

/-- `/TRIP RIG:\s*(\d+)/` -/
def tripRigRe : RE := rseq [rlit "TRIP RIG:", rstar rS, .grp 1 (rplus rD)]

/-- `/^([A-Z]{3})\s+(\d{4})$/` -/
def layoverRe : RE :=
  rseq [.bol, .grp 1 (rexact rU 3), rplus rS, .grp 2 (rexact rD 4), .eol]

/-- `/D-END:\s*(\d{4}L?)/` -/
def dendRe : RE :=
  rseq [rlit "D-END:", rstar rS, .grp 1 (rseq [rexact rD 4, ropt (RE.cls (fun c => c == 'L'))])]

/-- `/REPT:\s*(\d{4}L?)/` -/
def reptRe : RE :=
  rseq [rlit "REPT:", rstar rS, .grp 1 (rseq [rexact rD 4, ropt (RE.cls (fun c => c == 'L'))])]

end Pat

/-- `s.replace(/^EXCEPT ON\s*/i, '')`. -/
def stripExcept (s : String) : String :=
  match reMatchAt Pat.exceptRe s 0 with
  | some caps => String.mk (s.data.drop (cap caps 0).length)
  | none => s

/-! ## State of the duty-period scan (shared shape of both implementations) -/

structure DPState where
  dutyPeriods : List DutyPeriod
  currentLegs : List FlightLeg
  currentLayover : Option Layover
  lastDayOfMonth : Option Int
  totalBlock : String
  totalDeadhead : String
  totalCredit : String
  totalDutyFdp : String
deriving DecidableEq, Repr

def dpInit : DPState :=
  { dutyPeriods := [], currentLegs := [], currentLayover := none,
    lastDayOfMonth := some 0,
    totalBlock := "", totalDeadhead := "", totalCredit := "", totalDutyFdp := "" }

/-! ## The server-side parser (server/src/scraper/parser.ts) -/

namespace Server

/-- `$('table#table2, table[name="table2"]')`: every table whose id or name
attribute is `table2`, in document order. -/
def sidebarTables (doc : Node) : List Node :=
  (descendants doc).filter (fun n => tagIs "table" n &&
    (attrOf n "id" == some "table2" || attrOf n "name" == some "table2"))

/-- `.find('tr')` over that multi-element selection: every `tr` descendant of
a matched table, unique, in document order. -/
def sidebarRows (doc : Node) : List Node :=
  (descendants doc).filter (fun n => tagIs "tr" n &&
    (sidebarTables doc).any (fun t => (descendants t).any (nodeBeq n)))

/-- One step of the summary scan. -/
def sumStep (st : ScheduleSummary) (row : Node) : ScheduleSummary :=
  let cells := tds row
  if cells.length ≥ 2 then
    let label := strToLower (jsTrim (cellText cells 0))
    match jsParseFloat (jsTrim (cellText cells 1)) with
    | some v =>
      if label == "block" then { st with block := v }
      else if label == "credit" then { st with credit := v }
      else if label == "ytd" then { st with ytd := v }
      else if strHasSub label "days off" then { st with daysOff := v }
      else st
    | none => st
  else st

def parseSummary (doc : Node) : ScheduleSummary :=
  (sidebarRows doc).foldl sumStep ⟨0, 0, 0, 0⟩

/-- `table.find('> tr, > tbody > tr')` / `:scope > tr, :scope > tbody > tr`:
direct row children plus rows of direct `tbody` children, in document
order. -/
def tripRows (tbl : Node) : List Node :=
  (childNodes tbl).flatMap (fun c =>
    if tagIs "tr" c then [c]
    else if tagIs "tbody" c then childElemsTagged c "tr"
    else [])

/-- The inner flight table: the first descendant table containing a
`tr.main` header row. -/
def flightTableOf (tripTable : Node) : Option Node :=
  ((descendants tripTable).filter (fun t => tagIs "table" t &&
    (descendants t).any (fun r => tagIs "tr" r && hasClass r "main"))).head?

/-- The flight leg built from a `nowrap` row's cells. -/
def legOfRow (cells : List Node) : FlightLeg :=
  let route := jsTrim (cellText cells 5)
  let parts := strSplitChar route '-'
  { dayOfWeek := jsTrim (cellText cells 0),
    dayOfMonth := jsParseInt (jsTrim (cellText cells 1)),
    isDeadhead := jsTrim (cellText cells 2) != "" && jsTrim (cellText cells 2) != "\u00A0",
    positionCode := jsTrim (cellText cells 3),
    flightNumber := jsTrim (cellText cells 4),
    origin := (parts[0]?).getD "",
    destination := (parts[1]?).getD "",
    departureLocal := jsTrim (cellText cells 6),
    arrivalLocal := jsTrim (cellText cells 7),
    blockTime := jsTrim (cellText cells 8),
    groundTime := jsTrim (cellText cells 9) }

/-- The hotel-name/hotel-phone scan over a D-END row's cells. -/
def hotelStep (l : Layover) (p : Nat × Node) : Layover :=
  let t := jsTrim (textContent p.2)
  if p.1 > 1 && t != "" && !strHasSub t "D-END" && !strHasSub t "T.A.F.B." then
    if !strStartsWith t "(" && l.hotelName == "" then { l with hotelName := t }
    else if strStartsWith t "(" then { l with hotelPhone := t }
    else l
  else l

def hotelScan (lay : Layover) (cells : List Node) : Layover :=
  cells.enum.foldl hotelStep lay

/-- One cell of the totals-row scan: on the `Total:` label, load the four
pending totals from offsets +1/+2/+4/+5. -/
def boldStep (cells : List Node) (s : DPState) (p : Nat × Node) : DPState :=
  if jsTrim (textContent p.2) == "Total:" then
    { s with totalBlock := jsTrim (cellText cells (p.1 + 1)),
             totalDeadhead := jsTrim (cellText cells (p.1 + 2)),
             totalCredit := jsTrim (cellText cells (p.1 + 4)),
             totalDutyFdp := jsTrim (cellText cells (p.1 + 5)) }
  else s

/-- One iteration of the row scan in `parseDutyPeriods`. -/
def dpStep (st : DPState) (row : Node) : DPState :=
  if hasClass row "main" then st
  else if hasClass row "bold" then
    let cells := tds row
    cells.enum.foldl (boldStep cells) st
  else if hasClass row "nowrap" then
    let cells := tds row
    if cells.length < 10 then st
    else
      let dayOfMonth := jsParseInt (jsTrim (cellText cells 1))
      let st1 :=
        if st.currentLegs.length > 0 && jsNumNe dayOfMonth st.lastDayOfMonth &&
            st.currentLayover.isSome then
          { st with
            dutyPeriods := st.dutyPeriods ++
              [{ legs := st.currentLegs, totalBlock := "", totalDeadhead := "",
                 totalCredit := "", totalDutyFdp := "", layover := st.currentLayover }],
            currentLegs := [], currentLayover := none }
        else st
      let st2 := { st1 with lastDayOfMonth := dayOfMonth,
                            currentLegs := st1.currentLegs ++ [legOfRow cells] }
      match reFind Pat.layoverRe (jsTrim (cellText cells (cells.length - 1))) with
      | some caps =>
        let lay : Layover :=
          { airport := cap caps 1, restTime := cap caps 2, hotelName := "",
            hotelPhone := "", dutyEndLocal := "", reportLocal := "" }
        { st2 with currentLayover := some lay }
      | none => st2
  else
    let rowText := jsTrim (textContent row)
    match reFind Pat.dendRe rowText with
    | some dcaps =>
      match st.currentLayover with
      | some lay =>
        let lay1 := { lay with
          dutyEndLocal := cap dcaps 1,
          reportLocal := match reFind Pat.reptRe rowText with
            | some r => cap r 1
            | none => "" }
        { st with currentLayover := some (hotelScan lay1 (tds row)) }
      | none => st
    | none => st

def parseDutyPeriods (tripTable : Node) : List DutyPeriod :=
  match flightTableOf tripTable with
  | none => []
  | some ft =>
    let st := (descTagged ft "tr").foldl dpStep dpInit
    if st.currentLegs.length > 0 then
      st.dutyPeriods ++
        [{ legs := st.currentLegs, totalBlock := st.totalBlock,
           totalDeadhead := st.totalDeadhead, totalCredit := st.totalCredit,
           totalDutyFdp := st.totalDutyFdp, layover := none }]
    else st.dutyPeriods

def parseTripTotals (tripTable : Node) : TripTotals :=
  let boldRows := (descendants tripTable).filter (fun n => tagIs "tr" n && hasClass n "bold")
  match boldRows.getLast? with
  | none => ⟨"", "", "", ""⟩
  | some lastRow =>
    let cells := tds lastRow
    cells.enum.foldl (fun tt p =>
      if jsTrim (textContent p.2) == "Total:" then
        (⟨jsTrim (cellText cells (p.1 + 1)), jsTrim (cellText cells (p.1 + 2)),
          jsTrim (cellText cells (p.1 + 4)), jsTrim (cellText cells (p.1 + 5))⟩ : TripTotals)
      else tt) ⟨"", "", "", ""⟩

/-- Concatenated text of all `strong` descendants of a table:
cheerio `$(el).find('strong').text()`. -/
def strongsText (t : Node) : String :=
  ((descTagged t "strong").map textContent).foldl (· ++ ·) ""

/-- The crew table: the first descendant table whose concatenated `strong`
text contains `"Crew:"`. -/
def crewTableOf (tripTable : Node) : Option Node :=
  ((descendants tripTable).filter (fun t => tagIs "table" t &&
    strHasSub (strongsText t) "Crew:")).head?

/-- The per-row crew scan: for each index `i < cells.length - 2`, a cell with
text `CA`/`FO` followed by a non-empty employee number and name yields a
crew member. -/
def crewRow (cells : List Node) : List CrewMember :=
  (List.range (cells.length - 2)).foldl (fun acc i =>
    let posText := jsTrim (cellText cells i)
    if posText == "CA" || posText == "FO" then
      let empNum := jsTrim (cellText cells (i + 1))
      let name := jsTrim (cellText cells (i + 2))
      if empNum != "" && name != "" then
        acc ++ [{ position := posText, employeeNumber := empNum, name := name }]
      else acc
    else acc) []

def parseCrew (tripTable : Node) : List CrewMember :=
  match crewTableOf tripTable with
  | none => []
  | some ct => (descTagged ct "tr").foldl (fun acc r => acc ++ crewRow (tds r)) []

def parseTrip (table : Node) (year monthNumber : Int) : Option Trip :=
  match tripRows table with
  | r0 :: r1 :: _ =>
    let headerCells := tds r0
    let tripHeaderText := jsTrim (cellText headerCells 0)
    match reFind Pat.tripHeadRe tripHeaderText with
    | none => none
    | some m =>
      let tripNumber := cap m 1
      let dateStr := cap m 2
      let frequency := jsTrim (cellText headerCells 1)
      let baseReportTime := match reFind Pat.bseReptRe (jsTrim (cellText headerCells 2)) with
        | some c => cap c 1
        | none => ""
      let operatingDates := match reFind Pat.operatesRe (jsTrim (cellText headerCells 3)) with
        | some c => cap c 1
        | none => ""
      let detailCells := tds r1
      let baseEquipM := reFind Pat.baseEquipRe (jsTrim (cellText detailCells 0))
      let base := match baseEquipM with
        | some c => cap c 1
        | none => ""
      let equipment := match baseEquipM with
        | some c => cap c 2
        | none => ""
      let crewComposition := jsTrim (cellText detailCells 1)
      let exceptionsText := if detailCells.length > 2 then jsTrim (cellText detailCells 2) else ""
      let exceptions := stripExcept exceptionsText
      let dutyPeriods := parseDutyPeriods table
      let tafbRig := (descTagged table "strong").foldl (fun (pr : String × String) stg =>
        let t := jsTrim (textContent stg)
        let pr1 := match reFind Pat.tafbRe t with
          | some c => (cap c 1, pr.2)
          | none => pr
        match reFind Pat.tripRigRe t with
        | some c => (pr1.1, cap c 1)
        | none => pr1) ("", "")
      let totals := parseTripTotals table
      let crew := parseCrew table
      let dayNum := dateStr.take 2
      let monthAbbr := dateStr.drop 2
      let dateMonthNum : Int := match monthMapLookup monthAbbr with
        | some n => n
        | none => monthNumber
      let dateYear := if dateMonthNum < monthNumber then year + 1 else year
      let date := toString dateYear ++ "-" ++ padStart2 (toString dateMonthNum) ++ "-" ++ dayNum
      some { tripNumber := tripNumber, dateStr := dateStr, date := date,
             frequency := frequency, baseReportTime := baseReportTime,
             operatingDates := operatingDates, base := base, equipment := equipment,
             crewComposition := crewComposition, exceptions := exceptions,
             dutyPeriods := dutyPeriods, tafb := tafbRig.1, tripRig := tafbRig.2,
             totals := totals, crew := crew }
  | _ => none

def table4Of (doc : Node) : Option Node :=
  ((descendants doc).filter (fun n => tagIs "table" n && attrOf n "name" == some "table4")).head?

end Server

/-! ## The sandboxed WebView parser (the script built by
`getScheduleParserScript` in apps/mobile/src/parsers/scheduleParser.ts) -/

namespace Webview

/-- `document.getElementById('table2') || document.querySelector('table[name="table2"]')`:
the first element (of any tag) with id `table2`, else the first table with
name `table2`. -/
def sidebarTable (doc : Node) : Option Node :=
  match (descendants doc).find? (fun n => attrOf n "id" == some "table2") with
  | some el => some el
  | none =>
    (descendants doc).find? (fun n => tagIs "table" n && attrOf n "name" == some "table2")

/-- `table2.querySelectorAll('tr')` (empty when no sidebar table exists). -/
def sidebarRows (doc : Node) : List Node :=
  match sidebarTable doc with
  | some t => descTagged t "tr"
  | none => []

def sumStep (st : ScheduleSummary) (row : Node) : ScheduleSummary :=
  let cells := tds row
  if cells.length ≥ 2 then
    let label := strToLower (jsTrim (cellText cells 0))
    match jsParseFloat (jsTrim (cellText cells 1)) with
    | some v =>
      if label == "block" then { st with block := v }
      else if label == "credit" then { st with credit := v }
      else if label == "ytd" then { st with ytd := v }
      else if strHasSub label "days off" then { st with daysOff := v }
      else st
    | none => st
  else st

def parseSummary (doc : Node) : ScheduleSummary :=
  (sidebarRows doc).foldl sumStep ⟨0, 0, 0, 0⟩

def tripRows (tbl : Node) : List Node :=
  (childNodes tbl).flatMap (fun c =>
    if tagIs "tr" c then [c]
    else if tagIs "tbody" c then childElemsTagged c "tr"
    else [])

def flightTableOf (tripTable : Node) : Option Node :=
  ((descendants tripTable).filter (fun t => tagIs "table" t &&
    (descendants t).any (fun r => tagIs "tr" r && hasClass r "main"))).head?

def legOfRow (cells : List Node) : FlightLeg :=
  let route := jsTrim (cellText cells 5)
  let parts := strSplitChar route '-'
  { dayOfWeek := jsTrim (cellText cells 0),
    dayOfMonth := jsParseInt (jsTrim (cellText cells 1)),
    isDeadhead := jsTrim (cellText cells 2) != "" && jsTrim (cellText cells 2) != "\u00A0",
    positionCode := jsTrim (cellText cells 3),
    flightNumber := jsTrim (cellText cells 4),
    origin := (parts[0]?).getD "",
    destination := (parts[1]?).getD "",
    departureLocal := jsTrim (cellText cells 6),
    arrivalLocal := jsTrim (cellText cells 7),
    blockTime := jsTrim (cellText cells 8),
    groundTime := jsTrim (cellText cells 9) }

def hotelStep (l : Layover) (p : Nat × Node) : Layover :=
  let t := jsTrim (textContent p.2)
  if p.1 > 1 && t != "" && !strHasSub t "D-END" && !strHasSub t "T.A.F.B." then
    if !strStartsWith t "(" && l.hotelName == "" then { l with hotelName := t }
    else if strStartsWith t "(" then { l with hotelPhone := t }
    else l
  else l

def hotelScan (lay : Layover) (cells : List Node) : Layover :=
  cells.enum.foldl hotelStep lay

/-- One cell of the totals-row scan: on the `Total:` label, load the four
pending totals from offsets +1/+2/+4/+5. -/
def boldStep (cells : List Node) (s : DPState) (p : Nat × Node) : DPState :=
  if jsTrim (textContent p.2) == "Total:" then
    { s with totalBlock := jsTrim (cellText cells (p.1 + 1)),
             totalDeadhead := jsTrim (cellText cells (p.1 + 2)),
             totalCredit := jsTrim (cellText cells (p.1 + 4)),
             totalDutyFdp := jsTrim (cellText cells (p.1 + 5)) }
  else s

/-- One iteration of the row scan in `parseDutyPeriods`. -/
def dpStep (st : DPState) (row : Node) : DPState :=
  if hasClass row "main" then st
  else if hasClass row "bold" then
    let cells := tds row
    cells.enum.foldl (boldStep cells) st
  else if hasClass row "nowrap" then
    let cells := tds row
    if cells.length < 10 then st
    else
      let dayOfMonth := jsParseInt (jsTrim (cellText cells 1))
      let st1 :=
        if st.currentLegs.length > 0 && jsNumNe dayOfMonth st.lastDayOfMonth &&
            st.currentLayover.isSome then
          { st with
            dutyPeriods := st.dutyPeriods ++
              [{ legs := st.currentLegs, totalBlock := "", totalDeadhead := "",
                 totalCredit := "", totalDutyFdp := "", layover := st.currentLayover }],
            currentLegs := [], currentLayover := none }
        else st
      let st2 := { st1 with lastDayOfMonth := dayOfMonth,
                            currentLegs := st1.currentLegs ++ [legOfRow cells] }
      match reFind Pat.layoverRe (jsTrim (cellText cells (cells.length - 1))) with
      | some caps =>
        let lay : Layover :=
          { airport := cap caps 1, restTime := cap caps 2, hotelName := "",
            hotelPhone := "", dutyEndLocal := "", reportLocal := "" }
        { st2 with currentLayover := some lay }
      | none => st2
  else
    let rowText := jsTrim (textContent row)
    match reFind Pat.dendRe rowText with
    | some dcaps =>
      match st.currentLayover with
      | some lay =>
        let lay1 := { lay with
          dutyEndLocal := cap dcaps 1,
          reportLocal := match reFind Pat.reptRe rowText with
            | some r => cap r 1
            | none => "" }
        { st with currentLayover := some (hotelScan lay1 (tds row)) }
      | none => st
    | none => st

def parseDutyPeriods (tripTable : Node) : List DutyPeriod :=
  match flightTableOf tripTable with
  | none => []
  | some ft =>
    let st := (descTagged ft "tr").foldl dpStep dpInit
    if st.currentLegs.length > 0 then
      st.dutyPeriods ++
        [{ legs := st.currentLegs, totalBlock := st.totalBlock,
           totalDeadhead := st.totalDeadhead, totalCredit := st.totalCredit,
           totalDutyFdp := st.totalDutyFdp, layover := none }]
    else st.dutyPeriods

def parseTripTotals (tripTable : Node) : TripTotals :=
  let boldRows := (descendants tripTable).filter (fun n => tagIs "tr" n && hasClass n "bold")
  match boldRows.getLast? with
  | none => ⟨"", "", "", ""⟩
  | some lastRow =>
    let cells := tds lastRow
    cells.enum.foldl (fun tt p =>
      if jsTrim (textContent p.2) == "Total:" then
        (⟨jsTrim (cellText cells (p.1 + 1)), jsTrim (cellText cells (p.1 + 2)),
          jsTrim (cellText cells (p.1 + 4)), jsTrim (cellText cells (p.1 + 5))⟩ : TripTotals)
      else tt) ⟨"", "", "", ""⟩

/-- The crew table, WebView style: the first descendant table some single
`strong` descendant of which contains `"Crew:"`. -/
def crewTableOf (tripTable : Node) : Option Node :=
  ((descendants tripTable).filter (fun t => tagIs "table" t &&
    (descTagged t "strong").any (fun s => strHasSub (textContent s) "Crew:"))).head?

def crewRow (cells : List Node) : List CrewMember :=
  (List.range (cells.length - 2)).foldl (fun acc i =>
    let posText := jsTrim (cellText cells i)
    if posText == "CA" || posText == "FO" then
      let empNum := jsTrim (cellText cells (i + 1))
      let name := jsTrim (cellText cells (i + 2))
      if empNum != "" && name != "" then
        acc ++ [{ position := posText, employeeNumber := empNum, name := name }]
      else acc
    else acc) []

def parseCrew (tripTable : Node) : List CrewMember :=
  match crewTableOf tripTable with
  | none => []
  | some ct => (descTagged ct "tr").foldl (fun acc r => acc ++ crewRow (tds r)) []

def parseTrip (table : Node) (year monthNumber : Int) : Option Trip :=
  match tripRows table with
  | r0 :: r1 :: _ =>
    let headerCells := tds r0
    let tripHeaderText := jsTrim (cellText headerCells 0)
    match reFind Pat.tripHeadRe tripHeaderText with
    | none => none
    | some m =>
      let tripNumber := cap m 1
      let dateStr := cap m 2
      let frequency := jsTrim (cellText headerCells 1)
      let baseReportTime := match reFind Pat.bseReptRe (jsTrim (cellText headerCells 2)) with
        | some c => cap c 1
        | none => ""
      let operatingDates := match reFind Pat.operatesRe (jsTrim (cellText headerCells 3)) with
        | some c => cap c 1
        | none => ""
      let detailCells := tds r1
      let baseEquipM := reFind Pat.baseEquipRe (jsTrim (cellText detailCells 0))
      let base := match baseEquipM with
        | some c => cap c 1
        | none => ""
      let equipment := match baseEquipM with
        | some c => cap c 2
        | none => ""
      let crewComposition := jsTrim (cellText detailCells 1)
      let exceptionsText := if detailCells.length > 2 then jsTrim (cellText detailCells 2) else ""
      let exceptions := stripExcept exceptionsText
      let dutyPeriods := parseDutyPeriods table
      let tafbRig := (descTagged table "strong").foldl (fun (pr : String × String) stg =>
        let t := jsTrim (textContent stg)
        let pr1 := match reFind Pat.tafbRe t with
          | some c => (cap c 1, pr.2)
          | none => pr
        match reFind Pat.tripRigRe t with
        | some c => (pr1.1, cap c 1)
        | none => pr1) ("", "")
      let totals := parseTripTotals table
      let crew := parseCrew table
      let dayNum := dateStr.take 2
      let monthAbbr := dateStr.drop 2
      let dateMonthNum : Int := match monthMapLookup monthAbbr with
        | some n => n
        | none => monthNumber
      let dateYear := if dateMonthNum < monthNumber then year + 1 else year
      let date := toString dateYear ++ "-" ++ pad2 dateMonthNum ++ "-" ++ dayNum
      some { tripNumber := tripNumber, dateStr := dateStr, date := date,
             frequency := frequency, baseReportTime := baseReportTime,
             operatingDates := operatingDates, base := base, equipment := equipment,
             crewComposition := crewComposition, exceptions := exceptions,
             dutyPeriods := dutyPeriods, tafb := tafbRig.1, tripRig := tafbRig.2,
             totals := totals, crew := crew }
  | _ => none

def table4Of (doc : Node) : Option Node :=
  ((descendants doc).filter (fun n => tagIs "table" n && attrOf n "name" == some "table4")).head?

end Webview

/-! ## Concrete fixture documents

Small documents mirroring the structure of the February-2026 test fixture,
plus degenerate documents exercising the edge cases of the claims. -/

namespace Fix

def mkTd (s : String) : Node := .elem "td" [] [.text s]
def mkTdS (style s : String) : Node := .elem "td" [("style", style)] [.text s]
def mkTr (cs : List Node) : Node := .elem "tr" [] cs
def mkTrC (c : String) (cs : List Node) : Node := .elem "tr" [("class", c)] cs

/-- An inner flight table: header row, two legs on day 1 (the second opening
a BOS layover), the layover detail row, one leg on day 2, and a totals row. -/
def flightTbl : Node := .elem "table" [] [
  mkTrC "main" [mkTd "Day", mkTd "Date", mkTd "DH", mkTd "Pos"],
  mkTrC "nowrap" [mkTd "SU", mkTd "1", mkTd "", mkTd "*", mkTd "460", mkTd "MCO-SJU",
    mkTd "0559", mkTd "0940", mkTd "0341", mkTd "0057"],
  mkTrC "nowrap" [mkTd "SU", mkTd "1", mkTd "", mkTd "*", mkTd "3012", mkTd "SJU-BOS",
    mkTd "1037", mkTd "1510", mkTd "0433", mkTd "", mkTd "BOS 1545"],
  mkTr [mkTd "D-END: 1540", mkTd "x", mkTd "Hyatt Boston", mkTd "(617) 555-1212",
    mkTd "REPT: 0710"],
  mkTrC "nowrap" [mkTd "MO", mkTd "2", mkTd "", mkTd "*", mkTd "271", mkTd "BOS-MCO",
    mkTd "0810", mkTd "1130", mkTd "0320", mkTd ""],
  mkTrC "bold" [mkTd "Total:", mkTd "1134", mkTd "0000", mkTd "zz", mkTd "1200",
    mkTd "1330/1300"]
]

def crewTbl : Node := .elem "table" [] [
  mkTr [.elem "td" [] [.elem "strong" [] [.text "Crew:"]]],
  mkTr [mkTd "", mkTd "CA", mkTd "67948", mkTd "Price, Gregory", mkTd "", mkTd "FO",
    mkTd "76148", mkTd "Wendt, Brian"]
]

/-- A complete trip table for `O4031 : 01FEB`. -/
def tripTbl : Node := .elem "table" [] [
  mkTr [mkTdS "color: #0000ff; font-weight: bold" "O4031 : 01FEB", mkTd "EVERY DAY",
        mkTd "BSE REPT: 0515L", mkTd "Operates: Feb 1-Feb 9"],
  mkTr [mkTd "Base/Equip: MCO/321", mkTd "CA01FO01", mkTd "EXCEPT ON Feb 3"],
  mkTr [.elem "td" [] [flightTbl]],
  mkTr [.elem "td" [] [.elem "strong" [] [.text "T.A.F.B.: 2909"]]],
  mkTr [.elem "td" [] [crewTbl]]
]

/-- A content row whose first cell matches the trip header pattern. -/
def rowHead : Node := mkTr [mkTd "O4031 : 01FEB"]

/-- A second content row. -/
def rowDetail : Node := mkTr [mkTd "Base/Equip: MCO/321"]

/-- A trip table whose header matches but which contains no inner flight
table (no `tr.main`), so no duty period can be collected. -/
def tripNoFlight : Node := .elem "table" [] [rowHead, rowDetail]

/-- A trip table with a single content row whose first cell matches the trip
header pattern. -/
def tripOneRow : Node := .elem "table" [] [rowHead]

/-- An empty trip table. -/
def tripNoRows : Node := .elem "table" [] []

/-- A D-END detail row carrying a hotel name and two parenthesised cells. -/
def dendRow : Node :=
  mkTr [mkTd "D-END: 1540", mkTd "x", mkTd "Hilton", mkTd "(111) 555-0000",
    mkTd "(222) 555-9999"]

/-- A duty-period scan state with one collected leg and an open fresh
layover. -/
def leg0 : FlightLeg :=
  { dayOfWeek := "SU", dayOfMonth := some 1, isDeadhead := false, positionCode := "*",
    flightNumber := "460", origin := "MCO", destination := "SJU",
    departureLocal := "0559", arrivalLocal := "0940", blockTime := "0341",
    groundTime := "" }

def lay0 : Layover :=
  { airport := "BOS", restTime := "1545", hotelName := "", hotelPhone := "",
    dutyEndLocal := "", reportLocal := "" }

def stOpen : DPState :=
  { dpInit with currentLegs := [leg0], currentLayover := some lay0,
                lastDayOfMonth := some 1 }

/-- A `nowrap` flight-leg row on day 2. -/
def legRow2 : Node :=
  mkTrC "nowrap" [mkTd "MO", mkTd "2", mkTd "", mkTd "*", mkTd "271", mkTd "BOS-MCO",
    mkTd "0810", mkTd "1130", mkTd "0320", mkTd ""]

/-- A default trip record used only to extract a parsed trip out of an
`Option` in closed statements. -/
def trip0 : Trip :=
  { tripNumber := "", dateStr := "", date := "", frequency := "", baseReportTime := "",
    operatingDates := "", base := "", equipment := "", crewComposition := "",
    exceptions := "", dutyPeriods := [], tafb := "", tripRig := "",
    totals := ⟨"", "", "", ""⟩, crew := [] }

end Fix

/-! ## Characterisations used to state the claims -/

/-- A row that takes the flight-leg branch of the duty-period state machine:
class `nowrap` (and neither `main` nor `bold`, which are tested first) with
at least ten cells. -/
def isLegRow (r : Node) : Bool :=
  !hasClass r "main" && !hasClass r "bold" && hasClass r "nowrap" &&
    decide (10 ≤ (tds r).length)

/-- A cell of a D-END row that the hotel scan considers at all: index above 1,
non-empty trimmed text, containing neither `D-END` nor `T.A.F.B.`. -/
def dendCellQualifies (p : Nat × Node) : Bool :=
  let t := jsTrim (textContent p.2)
  decide (1 < p.1) && t != "" && !strHasSub t "D-END" && !strHasSub t "T.A.F.B."

/-- A qualifying D-END cell whose text does not start with `(`
(a hotel-name candidate). -/
def dendNameCell (p : Nat × Node) : Bool :=
  dendCellQualifies p && !strStartsWith (jsTrim (textContent p.2)) "("

/-- A qualifying D-END cell whose text starts with `(`
(a hotel-phone candidate). -/
def dendPhoneCell (p : Nat × Node) : Bool :=
  dendCellQualifies p && strStartsWith (jsTrim (textContent p.2)) "("

/-- The lower-cased trimmed label of a sidebar row. -/
def sumLabel (r : Node) : String := strToLower (jsTrim (cellText (tds r) 0))

/-- The parsed numeric value of a sidebar row's second cell. -/
def sumVal (r : Node) : Option ℚ := jsParseFloat (jsTrim (cellText (tds r) 1))

/-- A sidebar row matching an exact summary label with a parseable number. -/
def sumRowFor (lbl : String) (r : Node) : Bool :=
  decide (2 ≤ (tds r).length) && sumLabel r == lbl && (sumVal r).isSome

/-- A sidebar row matching the days-off label (substring match) with a
parseable number. -/
def sumRowDaysOff (r : Node) : Bool :=
  decide (2 ≤ (tds r).length) && strHasSub (sumLabel r) "days off" && (sumVal r).isSome

/-- The value a matching summary row contributes. -/
def sumValOf (r : Node) : ℚ := (sumVal r).getD 0

lemma foldl_toList_filterMap {α β : Type} (step : List β → α → List β) (f : α → Option β)
    (h : ∀ acc i, step acc i = acc ++ (f i).toList) :
    ∀ (l : List α) (acc : List β), l.foldl step acc = acc ++ l.filterMap f := by
  intro l
  induction l with
  | nil => intro acc; simp
  | cons a l ih =>
    intro acc
    rw [List.foldl_cons, h, List.filterMap_cons]
    cases hf : f a <;> simp [ih, hf]

/-- C10: in crew parsing, a cell whose trimmed text is exactly `CA` or `FO`
yields a crew member exactly when the two following cells both have non-empty
trimmed text, and a position cell within the last two positions of a row is
never matched: the row scan equals a `filterMap` over indices below
`cells.length - 2`. -/
theorem claim_C10 (cells : List Node) :
    Server.crewRow cells = (List.range (cells.length - 2)).filterMap (fun i =>
      if (jsTrim (cellText cells i) == "CA" || jsTrim (cellText cells i) == "FO") &&
          jsTrim (cellText cells (i + 1)) != "" && jsTrim (cellText cells (i + 2)) != "" then
        some ⟨jsTrim (cellText cells i), jsTrim (cellText cells (i + 1)),
          jsTrim (cellText cells (i + 2))⟩
      else none) := by
  unfold Server.crewRow
  rw [foldl_toList_filterMap _ _ ?hstep (List.range (cells.length - 2)) [], List.nil_append]
  case hstep =>
    intro acc i
    dsimp only
    cases hp : (jsTrim (cellText cells i) == "CA" || jsTrim (cellText cells i) == "FO") <;>
      cases h2 : (jsTrim (cellText cells (i + 1)) != "" && jsTrim (cellText cells (i + 2)) != "") <;>
        simp [hp, h2, Bool.and_eq_true]

/-- C4: on a flight-leg row (`nowrap`, at least 10 cells, not `main` or
`bold`), the state machine closes and emits a duty period before appending
the leg exactly when the open leg list is non-empty, the row's day-of-month
differs from the last-seen one, and a layover is open; otherwise the leg
joins the current period and no period is emitted. -/
theorem claim_C4 (st : DPState) (row : Node)
    (hm : hasClass row "main" = false) (hb : hasClass row "bold" = false)
    (hn : hasClass row "nowrap" = true) (hlen : 10 ≤ (tds row).length) :
    (0 < st.currentLegs.length ∧
        jsNumNe (jsParseInt (jsTrim (cellText (tds row) 1))) st.lastDayOfMonth = true ∧
        st.currentLayover.isSome = true →
      (Server.dpStep st row).dutyPeriods =
          st.dutyPeriods ++ [⟨st.currentLegs, "", "", "", "", st.currentLayover⟩] ∧
        (Server.dpStep st row).currentLegs = [Server.legOfRow (tds row)]) ∧
    (¬(0 < st.currentLegs.length ∧
        jsNumNe (jsParseInt (jsTrim (cellText (tds row) 1))) st.lastDayOfMonth = true ∧
        st.currentLayover.isSome = true) →
      (Server.dpStep st row).dutyPeriods = st.dutyPeriods ∧
        (Server.dpStep st row).currentLegs = st.currentLegs ++ [Server.legOfRow (tds row)]) := by
  unfold Server.dpStep
  rw [hm, hb, hn]
  simp only [Bool.false_eq_true, if_false, if_true]
  rw [if_neg (by omega)]
  constructor
  · rintro ⟨h1, h2, h3⟩
    rw [if_pos (by simp [h1, h2, h3])]
    cases hl : reFind Pat.layoverRe
        (jsTrim (cellText (tds row) ((tds row).length - 1))) <;> simp
  · intro hcond
    rw [if_neg ?hneg]
    case hneg =>
      simp only [Bool.and_eq_true, decide_eq_true_eq, Option.isSome]
      intro hc
      exact hcond ⟨hc.1.1, hc.1.2, hc.2⟩
    cases hl : reFind Pat.layoverRe
        (jsTrim (cellText (tds row) ((tds row).length - 1))) <;> simp

/-- The bold-totals scan changes only the four pending totals. -/
lemma boldFold_fields (cells : List Node) :
    ∀ (l : List (Nat × Node)) (st : DPState),
      (l.foldl (Server.boldStep cells) st).dutyPeriods = st.dutyPeriods ∧
      (l.foldl (Server.boldStep cells) st).currentLegs = st.currentLegs ∧
      (l.foldl (Server.boldStep cells) st).currentLayover = st.currentLayover := by
  intro l
  induction l with
  | nil => intro st; exact ⟨rfl, rfl, rfl⟩
  | cons p l ih =>
    intro st
    rw [List.foldl_cons]
    have hstep : (Server.boldStep cells st p).dutyPeriods = st.dutyPeriods ∧
        (Server.boldStep cells st p).currentLegs = st.currentLegs ∧
        (Server.boldStep cells st p).currentLayover = st.currentLayover := by
      unfold Server.boldStep
      split <;> exact ⟨rfl, rfl, rfl⟩
    obtain ⟨h1, h2, h3⟩ := ih (Server.boldStep cells st p)
    exact ⟨h1.trans hstep.1, h2.trans hstep.2.1, h3.trans hstep.2.2⟩

/-- Any step of the duty-period machine either leaves periods and legs alone,
appends one leg, or closes the current (non-empty) leg list into a period. -/
lemma dpStep_shape (st : DPState) (r : Node) :
    ((Server.dpStep st r).dutyPeriods = st.dutyPeriods ∧
      (Server.dpStep st r).currentLegs = st.currentLegs) ∨
    ((Server.dpStep st r).dutyPeriods = st.dutyPeriods ∧
      (Server.dpStep st r).currentLegs = st.currentLegs ++ [Server.legOfRow (tds r)]) ∨
    (0 < st.currentLegs.length ∧
      (Server.dpStep st r).dutyPeriods =
        st.dutyPeriods ++ [⟨st.currentLegs, "", "", "", "", st.currentLayover⟩] ∧
      (Server.dpStep st r).currentLegs = [Server.legOfRow (tds r)]) := by
  unfold Server.dpStep
  split
  · exact Or.inl ⟨rfl, rfl⟩
  split
  · left
    exact ⟨(boldFold_fields _ _ _).1, (boldFold_fields _ _ _).2.1⟩
  split
  · dsimp only
    split
    · left
      exact ⟨rfl, rfl⟩
    · by_cases hcond : (decide (st.currentLegs.length > 0) &&
          jsNumNe (jsParseInt (jsTrim (cellText (tds r) 1))) st.lastDayOfMonth &&
          st.currentLayover.isSome) = true
      · rw [if_pos hcond]
        simp only [Bool.and_eq_true, decide_eq_true_eq] at hcond
        refine Or.inr (Or.inr ⟨hcond.1.1, ?_, ?_⟩) <;> (split <;> rfl)
      · rw [if_neg hcond]
        refine Or.inr (Or.inl ⟨?_, ?_⟩) <;> (split <;> rfl)
  · cases hd : reFind Pat.dendRe (jsTrim (textContent r)) with
    | none => simp [hd]
    | some dcaps =>
      cases hlay : st.currentLayover with
      | none => simp [hd, hlay]
      | some lay => simp [hd, hlay]

/-- A flight-leg row always leaves a non-empty open leg list. -/
lemma dpStep_legRow (st : DPState) (r : Node) (h : isLegRow r = true) :
    (Server.dpStep st r).currentLegs ≠ [] := by
  unfold isLegRow at h
  simp only [Bool.and_eq_true, Bool.not_eq_true', decide_eq_true_eq] at h
  obtain ⟨⟨⟨hm, hb⟩, hn⟩, hlen⟩ := h
  unfold Server.dpStep
  rw [hm, hb, hn]
  simp only [Bool.false_eq_true, if_false, if_true]
  rw [if_neg (by omega)]
  by_cases hcond : (decide (st.currentLegs.length > 0) &&
      jsNumNe (jsParseInt (jsTrim (cellText (tds r) 1))) st.lastDayOfMonth &&
      st.currentLayover.isSome) = true
  · rw [if_pos hcond]
    split <;> simp
  · rw [if_neg hcond]
    split <;> simp

/-- Invert a successful `parseTrip`: the duty periods are those of
`parseDutyPeriods`, and the date field is rebuilt from the date token, the
reference year and the reference month exactly as in the source. -/
lemma parseTrip_inv (tbl : Node) (y m : Int) (t : Trip)
    (h : Server.parseTrip tbl y m = some t) :
    t.dutyPeriods = Server.parseDutyPeriods tbl ∧
    t.date = toString (if (monthMapLookup (t.dateStr.drop 2)).getD m < m then y + 1 else y) ++
      "-" ++ padStart2 (toString ((monthMapLookup (t.dateStr.drop 2)).getD m)) ++
      "-" ++ t.dateStr.take 2 := by
  unfold Server.parseTrip at h
  split at h
  · dsimp only at h
    split at h
    · exact absurd h (by simp)
    · rename_i r0 r1 rest m' hm'
      rw [Option.some_inj] at h
      subst h
      refine ⟨rfl, ?_⟩
      dsimp only
      cases hl : monthMapLookup ((cap m' 2).drop 2) <;> simp [hl, Option.getD]
  · exact absurd h (by simp)

lemma dpStep_P (st : DPState) (r : Node)
    (h : st.dutyPeriods ≠ [] ∨ st.currentLegs ≠ []) :
    (Server.dpStep st r).dutyPeriods ≠ [] ∨ (Server.dpStep st r).currentLegs ≠ [] := by
  rcases dpStep_shape st r with ⟨h1, h2⟩ | ⟨h1, h2⟩ | ⟨hpos, h1, h2⟩
  · rw [h1, h2]; exact h
  · rw [h1, h2]
    rcases h with h | h
    · exact Or.inl h
    · right; simp
  · left; rw [h1]; simp

lemma foldl_dpStep_P (l : List Node) :
    ∀ st : DPState, (st.dutyPeriods ≠ [] ∨ st.currentLegs ≠ []) →
      ((l.foldl Server.dpStep st).dutyPeriods ≠ [] ∨
        (l.foldl Server.dpStep st).currentLegs ≠ []) := by
  induction l with
  | nil => intro st h; exact h
  | cons r l ih => intro st h; exact ih _ (dpStep_P st r h)

/-- C2 (amended): a successfully parsed trip has non-empty `dutyPeriods`
provided its inner flight table — the first descendant table containing a
row of class "main" — exists and contains at least one flight-leg row
(class "nowrap", at least 10 cells).  (As stated the claim fails: a
matching header with no inner flight table yields a trip with an empty
`dutyPeriods` list, see the counterexample.) -/
theorem claim_C2 (tbl : Node) (y m : Int) (t : Trip)
    (h : Server.parseTrip tbl y m = some t)
    (ft : Node) (hft : Server.flightTableOf tbl = some ft)
    (hleg : (descTagged ft "tr").any isLegRow = true) :
    t.dutyPeriods ≠ [] := by
  rw [(parseTrip_inv tbl y m t h).1]
  unfold Server.parseDutyPeriods
  rw [hft]
  dsimp only
  obtain ⟨r, hr, hlr⟩ := List.any_eq_true.mp hleg
  obtain ⟨l1, l2, hrows⟩ := List.append_of_mem hr
  rw [hrows, List.foldl_append, List.foldl_cons]
  have hfin := foldl_dpStep_P l2 (Server.dpStep (l1.foldl Server.dpStep dpInit) r)
    (Or.inr (dpStep_legRow (l1.foldl Server.dpStep dpInit) r hlr))
  split
  · intro hc
    have hlc := congrArg List.length hc
    simp at hlc
  · rename_i hlen
    rcases hfin with hfin | hfin
    · exact hfin
    · exact absurd (List.eq_nil_of_length_eq_zero (by omega)) hfin

lemma dpStep_Q (st : DPState) (r : Node)
    (h : ∀ dp ∈ st.dutyPeriods, dp.legs ≠ []) :
    ∀ dp ∈ (Server.dpStep st r).dutyPeriods, dp.legs ≠ [] := by
  rcases dpStep_shape st r with ⟨h1, _⟩ | ⟨h1, _⟩ | ⟨hpos, h1, _⟩
  · rw [h1]; exact h
  · rw [h1]; exact h
  · rw [h1]
    intro dp hdp
    rcases List.mem_append.mp hdp with hdp | hdp
    · exact h dp hdp
    · rw [List.mem_singleton.mp hdp]
      intro hc
      dsimp only at hc
      rw [hc] at hpos
      simp at hpos

lemma foldl_dpStep_Q (l : List Node) :
    ∀ st : DPState, (∀ dp ∈ st.dutyPeriods, dp.legs ≠ []) →
      ∀ dp ∈ (l.foldl Server.dpStep st).dutyPeriods, dp.legs ≠ [] := by
  induction l with
  | nil => intro st h; exact h
  | cons r l ih => intro st h; exact ih _ (dpStep_Q st r h)

/-- C5: every duty period present in `parseDutyPeriods`' output has a
non-empty legs list. -/
theorem claim_C5 (tbl : Node) : ∀ dp ∈ Server.parseDutyPeriods tbl, dp.legs ≠ [] := by
  unfold Server.parseDutyPeriods
  cases hft : Server.flightTableOf tbl with
  | none => simp
  | some ft =>
    dsimp only
    have hfin := foldl_dpStep_Q (descTagged ft "tr") dpInit (by simp [dpInit])
    split
    · rename_i hlen
      intro dp hdp
      rcases List.mem_append.mp hdp with hdp | hdp
      · exact hfin dp hdp
      · rw [List.mem_singleton.mp hdp]
        intro hc
        dsimp only at hc
        rw [hc] at hlen
        simp at hlen
    · exact hfin

/-- C6: for a successfully parsed trip, the date field is rebuilt from the
token's literal 2-digit day and its 3-letter month abbreviation resolved
through the fixed month table (falling back to the reference month), with
the year advanced by one exactly when the resolved month number is
strictly below the reference month number, and the month zero-padded to
two digits. -/
theorem claim_C6 (tbl : Node) (y m : Int) (t : Trip)
    (h : Server.parseTrip tbl y m = some t) :
    t.date = toString (if (monthMapLookup (t.dateStr.drop 2)).getD m < m then y + 1 else y) ++
      "-" ++ padStart2 (toString ((monthMapLookup (t.dateStr.drop 2)).getD m)) ++
      "-" ++ t.dateStr.take 2 :=
  (parseTrip_inv tbl y m t h).2

lemma dendCellQualifies_unfold (p : Nat × Node) :
    dendCellQualifies p = (decide (1 < p.1) && jsTrim (textContent p.2) != "" &&
      !strHasSub (jsTrim (textContent p.2)) "D-END" &&
      !strHasSub (jsTrim (textContent p.2)) "T.A.F.B.") := rfl

lemma hotelStep_not_qual (lay : Layover) (p : Nat × Node)
    (hq : dendCellQualifies p = false) : Server.hotelStep lay p = lay := by
  rw [dendCellQualifies_unfold] at hq
  unfold Server.hotelStep
  simp [gt_iff_lt, hq]

lemma hotelStep_name (lay : Layover) (p : Nat × Node)
    (hq : dendCellQualifies p = true)
    (hs : strStartsWith (jsTrim (textContent p.2)) "(" = false)
    (hn : lay.hotelName = "") :
    Server.hotelStep lay p = { lay with hotelName := jsTrim (textContent p.2) } := by
  rw [dendCellQualifies_unfold] at hq
  unfold Server.hotelStep
  simp [gt_iff_lt, hq, hs, hn]

lemma hotelStep_keep (lay : Layover) (p : Nat × Node)
    (hs : strStartsWith (jsTrim (textContent p.2)) "(" = false)
    (hn : lay.hotelName ≠ "") :
    Server.hotelStep lay p = lay := by
  cases hq : dendCellQualifies p with
  | false => exact hotelStep_not_qual lay p hq
  | true =>
    rw [dendCellQualifies_unfold] at hq
    unfold Server.hotelStep
    simp [gt_iff_lt, hq, hs, hn]

lemma hotelStep_phone (lay : Layover) (p : Nat × Node)
    (hq : dendCellQualifies p = true)
    (hs : strStartsWith (jsTrim (textContent p.2)) "(" = true) :
    Server.hotelStep lay p = { lay with hotelPhone := jsTrim (textContent p.2) } := by
  rw [dendCellQualifies_unfold] at hq
  unfold Server.hotelStep
  simp [gt_iff_lt, hq, hs]

/-- Characterisation of the hotel scan: starting from an empty hotel name,
the name becomes the first name-candidate cell's text (or stays empty), a
non-empty name is never overwritten, and the phone becomes the text of the
LAST phone-candidate cell (or keeps its prior value). -/
lemma hotelFold_out (l : List (Nat × Node)) : ∀ lay : Layover,
    (lay.hotelName = "" →
      (l.foldl Server.hotelStep lay).hotelName =
        ((l.filter dendNameCell).head?).elim "" (fun p => jsTrim (textContent p.2))) ∧
    (lay.hotelName ≠ "" →
      (l.foldl Server.hotelStep lay).hotelName = lay.hotelName) ∧
    (l.foldl Server.hotelStep lay).hotelPhone =
      ((l.filter dendPhoneCell).getLast?).elim lay.hotelPhone
        (fun p => jsTrim (textContent p.2)) := by
  induction l with
  | nil => intro lay; exact ⟨fun h => h.symm ▸ rfl, fun _ => rfl, rfl⟩
  | cons p l ih =>
    intro lay
    rw [List.foldl_cons]
    by_cases hq : dendCellQualifies p = true
    · by_cases hs : strStartsWith (jsTrim (textContent p.2)) "(" = true
      · -- phone cell
        have hname : dendNameCell p = false := by simp [dendNameCell, hs]
        have hphone : dendPhoneCell p = true := by simp [dendPhoneCell, hq, hs]
        rw [hotelStep_phone lay p hq hs]
        obtain ⟨ih1, ih2, ih3⟩ := ih { lay with hotelPhone := jsTrim (textContent p.2) }
        refine ⟨?_, ?_, ?_⟩
        · intro hn
          rw [List.filter_cons_of_neg (by simp [hname])]
          exact ih1 (by simpa using hn)
        · intro hn
          simpa using ih2 (by simpa using hn)
        · rw [List.filter_cons_of_pos (by simp [hphone]), ih3]
          cases hfl : l.filter dendPhoneCell with
          | nil => simp
          | cons q fl => simp [hfl, List.getLast?_cons, List.getLastD_cons]
      · -- name cell
        have hs' : strStartsWith (jsTrim (textContent p.2)) "(" = false := by
          simpa using hs
        have hname : dendNameCell p = true := by simp [dendNameCell, hq, hs']
        have hphone : dendPhoneCell p = false := by simp [dendPhoneCell, hs']
        by_cases hn : lay.hotelName = ""
        · rw [hotelStep_name lay p hq hs' hn]
          obtain ⟨ih1, ih2, ih3⟩ := ih { lay with hotelName := jsTrim (textContent p.2) }
          have htne : jsTrim (textContent p.2) ≠ "" := by
            rw [dendCellQualifies_unfold] at hq
            simp only [Bool.and_eq_true, bne_iff_ne, ne_eq] at hq
            exact hq.1.1.2
          refine ⟨?_, ?_, ?_⟩
          · intro _
            rw [List.filter_cons_of_pos (by simp [hname])]
            simpa using ih2 htne
          · intro hn2
            exact absurd hn hn2
          · rw [List.filter_cons_of_neg (by simp [hphone])]
            exact ih3
        · rw [hotelStep_keep lay p hs' hn]
          obtain ⟨ih1, ih2, ih3⟩ := ih lay
          refine ⟨fun h => absurd h hn, ?_, ?_⟩
          · intro _
            exact ih2 hn
          · rw [List.filter_cons_of_neg (by simp [hphone])]
            exact ih3
    · -- unqualified cell
      have hq' : dendCellQualifies p = false := by simpa using hq
      have hname : dendNameCell p = false := by simp [dendNameCell, hq']
      have hphone : dendPhoneCell p = false := by simp [dendPhoneCell, hq']
      rw [hotelStep_not_qual lay p hq']
      obtain ⟨ih1, ih2, ih3⟩ := ih lay
      refine ⟨?_, ?_, ?_⟩
      · intro hn
        rw [List.filter_cons_of_neg (by simp [hname])]
        exact ih1 hn
      · intro hn
        exact ih2 hn
      · rw [List.filter_cons_of_neg (by simp [hphone])]
        exact ih3

/-- C7 (amended): when a D-END detail row is processed while a layover with
an empty hotel name is open, the layover's hotel name becomes the first
cell (index above 1, non-empty, not containing `D-END`/`T.A.F.B.`) not
starting with `(`, and its hotel phone becomes the LAST such cell starting
with `(` (keeping its prior value when none does).  (As stated the claim
fails: with two parenthesised cells the code keeps the last, not the
first, see the counterexample.) -/
theorem claim_C7 (st : DPState) (row : Node) (lay : Layover)
    (hm : hasClass row "main" = false) (hb : hasClass row "bold" = false)
    (hn : hasClass row "nowrap" = false)
    (hd : (reFind Pat.dendRe (jsTrim (textContent row))).isSome = true)
    (hlay : st.currentLayover = some lay) (hname : lay.hotelName = "") :
    ((Server.dpStep st row).currentLayover.map Layover.hotelName) =
      some ((((tds row).enum.filter dendNameCell).head?).elim ""
        (fun p => jsTrim (textContent p.2))) ∧
    ((Server.dpStep st row).currentLayover.map Layover.hotelPhone) =
      some ((((tds row).enum.filter dendPhoneCell).getLast?).elim lay.hotelPhone
        (fun p => jsTrim (textContent p.2))) := by
  unfold Server.dpStep
  rw [hm, hb, hn]
  simp only [Bool.false_eq_true, if_false]
  cases hdm : reFind Pat.dendRe (jsTrim (textContent row)) with
  | none => rw [hdm] at hd; simp at hd
  | some dcaps =>
    simp only [hdm, hlay]
    unfold Server.hotelScan
    obtain ⟨h1, h2, h3⟩ := hotelFold_out (tds row).enum
      { lay with
        dutyEndLocal := cap dcaps 1,
        reportLocal := (match reFind Pat.reptRe (jsTrim (textContent row)) with
                        | some r => cap r 1
                        | none => "") }
    constructor
    · simpa using h1 (by simpa using hname)
    · simpa using h3

/-- A label containing `"days off"` is distinct from any label that does
not contain it. -/
lemma strHasSub_ne (s t : String) (h : strHasSub s "days off" = true)
    (ht : strHasSub t "days off" = false) : (s == t) = false := by
  cases hb : s == t with
  | false => rfl
  | true =>
    rw [beq_iff_eq] at hb
    subst hb
    rw [h] at ht
    exact absurd ht (by simp)

lemma sumStep_len_lt (st : ScheduleSummary) (r : Node)
    (h : ¬2 ≤ (tds r).length) : Server.sumStep st r = st := by
  unfold Server.sumStep
  rw [if_neg (by simpa using h)]

lemma sumStep_nan (st : ScheduleSummary) (r : Node)
    (h : sumVal r = none) : Server.sumStep st r = st := by
  unfold Server.sumStep
  unfold sumVal at h
  dsimp only
  split
  · rw [h]
  · rfl

/-- What one summary step does to each field, in terms of the row
predicates. -/
lemma sumStep_out (st : ScheduleSummary) (r : Node) :
    (Server.sumStep st r).block = (if sumRowFor "block" r = true then sumValOf r else st.block) ∧
    (Server.sumStep st r).credit = (if sumRowFor "credit" r = true then sumValOf r else st.credit) ∧
    (Server.sumStep st r).ytd = (if sumRowFor "ytd" r = true then sumValOf r else st.ytd) ∧
    (Server.sumStep st r).daysOff =
      (if sumRowDaysOff r = true then sumValOf r else st.daysOff) := by
  by_cases hlen : 2 ≤ (tds r).length
  · cases hv : sumVal r with
    | none =>
      rw [sumStep_nan st r hv]
      simp [sumRowFor, sumRowDaysOff, hv]
    | some v =>
      have hv' : jsParseFloat (jsTrim (cellText (tds r) 1)) = some v := hv
      unfold Server.sumStep
      dsimp only
      rw [if_pos hlen, hv']
      have hval : sumValOf r = v := by simp [sumValOf, hv]
      by_cases hb : (strToLower (jsTrim (cellText (tds r) 0)) == "block") = true
      · have hl2 : strToLower (jsTrim (cellText (tds r) 0)) = "block" := eq_of_beq hb
        have hds : strHasSub "block" "days off" = false := by decide
        simp [hb, hl2, sumRowFor, sumRowDaysOff, sumLabel, hv, hval, hlen, hds]
      · simp only [hb, Bool.false_eq_true, if_false]
        by_cases hc : (strToLower (jsTrim (cellText (tds r) 0)) == "credit") = true
        · have hl2 : strToLower (jsTrim (cellText (tds r) 0)) = "credit" := eq_of_beq hc
          have hds : strHasSub "credit" "days off" = false := by decide
          simp [hb, hc, hl2, sumRowFor, sumRowDaysOff, sumLabel, hv, hval, hlen, hds]
        · simp only [hc, Bool.false_eq_true, if_false]
          by_cases hy : (strToLower (jsTrim (cellText (tds r) 0)) == "ytd") = true
          · have hl2 : strToLower (jsTrim (cellText (tds r) 0)) = "ytd" := eq_of_beq hy
            have hds : strHasSub "ytd" "days off" = false := by decide
            simp [hb, hc, hy, hl2, sumRowFor, sumRowDaysOff, sumLabel, hv, hval, hlen, hds]
          · simp only [hy, Bool.false_eq_true, if_false]
            by_cases hdo : strHasSub (strToLower (jsTrim (cellText (tds r) 0))) "days off" = true
            · simp [hb, hc, hy, hdo, sumRowFor, sumRowDaysOff, sumLabel, hv, hval, hlen]
            · simp [hb, hc, hy, hdo, sumRowFor, sumRowDaysOff, sumLabel, hv, hval, hlen]
  · rw [sumStep_len_lt st r hlen]
    simp [sumRowFor, sumRowDaysOff, hlen]

/-- Left fold with an overwrite-on-match step: the result is the value of
the last matching element, or the initial value when none matches. -/
lemma foldl_lastWins {α σ : Type} (step : σ → α → σ) (proj : σ → ℚ)
    (pred : α → Bool) (val : α → ℚ)
    (hstep : ∀ s a, proj (step s a) = if pred a = true then val a else proj s) :
    ∀ (l : List α) (s : σ),
      proj (l.foldl step s) = ((l.filter pred).getLast?).elim (proj s) val := by
  intro l
  induction l using List.reverseRecOn with
  | nil => intro s; rfl
  | append_singleton l a ih =>
    intro s
    rw [List.foldl_append, List.foldl_cons, List.foldl_nil, hstep, List.filter_append]
    cases hp : pred a with
    | true => simp [hp, List.getLast?_concat]
    | false => simp [hp, ih]

/-- C8: each summary total equals the value of the last sidebar row in
document order whose label matches that total and whose value cell parses
as a number, and is zero when no such row exists; rows with unparseable
values are skipped (the extractor is a total function, so no input makes
it raise). -/
theorem claim_C8 (doc : Node) :
    (Server.parseSummary doc).block =
      (((Server.sidebarRows doc).filter (sumRowFor "block")).getLast?).elim 0 sumValOf ∧
    (Server.parseSummary doc).credit =
      (((Server.sidebarRows doc).filter (sumRowFor "credit")).getLast?).elim 0 sumValOf ∧
    (Server.parseSummary doc).ytd =
      (((Server.sidebarRows doc).filter (sumRowFor "ytd")).getLast?).elim 0 sumValOf ∧
    (Server.parseSummary doc).daysOff =
      (((Server.sidebarRows doc).filter sumRowDaysOff).getLast?).elim 0 sumValOf := by
  unfold Server.parseSummary
  refine ⟨?_, ?_, ?_, ?_⟩
  · exact foldl_lastWins Server.sumStep (fun s => s.block) (sumRowFor "block") sumValOf
      (fun s a => (sumStep_out s a).1) (Server.sidebarRows doc) ⟨0, 0, 0, 0⟩
  · exact foldl_lastWins Server.sumStep (fun s => s.credit) (sumRowFor "credit") sumValOf
      (fun s a => (sumStep_out s a).2.1) (Server.sidebarRows doc) ⟨0, 0, 0, 0⟩
  · exact foldl_lastWins Server.sumStep (fun s => s.ytd) (sumRowFor "ytd") sumValOf
      (fun s a => (sumStep_out s a).2.2.1) (Server.sidebarRows doc) ⟨0, 0, 0, 0⟩
  · exact foldl_lastWins Server.sumStep (fun s => s.daysOff) sumRowDaysOff sumValOf
      (fun s a => (sumStep_out s a).2.2.2) (Server.sidebarRows doc) ⟨0, 0, 0, 0⟩

/-- C3 (amended): for a table whose content-row list has at least two rows,
`parseTrip` returns no trip exactly when the header pattern fails to match
the first row's first cell; a table with fewer than two content rows is
always rejected.  (As stated the claim fails: a one-row table whose first
cell matches the pattern is still rejected, see the counterexample.) -/
theorem claim_C3 (table : Node) (y m : Int) :
    (∀ r0 r1 rest, Server.tripRows table = r0 :: r1 :: rest →
      (Server.parseTrip table y m = none ↔
        reFind Pat.tripHeadRe (jsTrim (cellText (tds r0) 0)) = none)) ∧
    ((Server.tripRows table).length < 2 → Server.parseTrip table y m = none) := by
  constructor
  · intro r0 r1 rest heq
    unfold Server.parseTrip
    rw [heq]
    dsimp only
    cases hf : reFind Pat.tripHeadRe (jsTrim (cellText (tds r0) 0)) with
    | none => simp [hf]
    | some m' => simp [hf]
  · intro hlen
    unfold Server.parseTrip
    cases heq : Server.tripRows table with
    | nil => rfl
    | cons r0 rest =>
      cases rest with
      | nil => rfl
      | cons r1 rest2 =>
        rw [heq] at hlen
        simp at hlen
        omega

lemma eqFlightTableOf : Server.flightTableOf = Webview.flightTableOf := rfl
lemma eqDpStep : Server.dpStep = Webview.dpStep := rfl
lemma eqTable4Of : Server.table4Of = Webview.table4Of := rfl
/-- C2 counterexample: a trip table with a matching header but no inner
flight table parses to a trip whose `dutyPeriods` list is empty. -/
theorem claim_C2_counterexample :
    (Server.parseTrip Fix.tripNoFlight 2026 2).isSome = true ∧
    ((Server.parseTrip Fix.tripNoFlight 2026 2).getD Fix.trip0).dutyPeriods = [] :=
  ⟨rfl, rfl⟩

theorem claim_C2_witness :
    ((Server.parseTrip Fix.tripTbl 2026 2).getD Fix.trip0).dutyPeriods ≠ [] :=
  claim_C2 Fix.tripTbl 2026 2 _ rfl Fix.flightTbl rfl (by decide)

/-- C3 counterexample: a single-row table whose first cell matches the trip
header pattern is still rejected. -/
theorem claim_C3_counterexample :
    reTest Pat.tripHeadRe (jsTrim (cellText (tds Fix.rowHead) 0)) = true ∧
    Server.tripRows Fix.tripOneRow = [Fix.rowHead] ∧
    Server.parseTrip Fix.tripOneRow 2026 2 = none :=
  ⟨by decide, rfl, rfl⟩

theorem claim_C3_witness :
    (Server.parseTrip Fix.tripNoFlight 2026 2 = none ↔
      reFind Pat.tripHeadRe (jsTrim (cellText (tds Fix.rowHead) 0)) = none) ∧
    Server.parseTrip Fix.tripNoRows 2026 2 = none :=
  ⟨(claim_C3 Fix.tripNoFlight 2026 2).1 Fix.rowHead Fix.rowDetail [] rfl,
    (claim_C3 Fix.tripNoRows 2026 2).2 (by decide)⟩

theorem claim_C4_witness :
    (Server.dpStep Fix.stOpen Fix.legRow2).dutyPeriods =
      Fix.stOpen.dutyPeriods ++
        [⟨Fix.stOpen.currentLegs, "", "", "", "", Fix.stOpen.currentLayover⟩] ∧
    (Server.dpStep Fix.stOpen Fix.legRow2).currentLegs =
      [Server.legOfRow (tds Fix.legRow2)] :=
  (claim_C4 Fix.stOpen Fix.legRow2 rfl rfl rfl (by decide)).1
    ⟨by decide, by decide, by decide⟩

theorem claim_C5_witness :
    ((Server.parseDutyPeriods Fix.tripTbl).headD ⟨[], "", "", "", "", none⟩).legs ≠ [] :=
  claim_C5 Fix.tripTbl _ (by decide)

theorem claim_C6_witness :
    ((Server.parseTrip Fix.tripTbl 2026 2).getD Fix.trip0).date =
      toString (if (monthMapLookup
            ((((Server.parseTrip Fix.tripTbl 2026 2).getD Fix.trip0).dateStr).drop 2)).getD 2 <
          2 then (2026 : Int) + 1 else 2026) ++ "-" ++
        padStart2 (toString ((monthMapLookup
          ((((Server.parseTrip Fix.tripTbl 2026 2).getD Fix.trip0).dateStr).drop 2)).getD 2)) ++
        "-" ++ (((Server.parseTrip Fix.tripTbl 2026 2).getD Fix.trip0).dateStr).take 2 :=
  claim_C6 Fix.tripTbl 2026 2 _ rfl

/-- C7 counterexample: a D-END row with two parenthesised cells leaves the
LAST one as the hotel phone, not the first. -/
theorem claim_C7_counterexample :
    ((Server.dpStep Fix.stOpen Fix.dendRow).currentLayover.map Layover.hotelPhone) =
      some "(222) 555-9999" ∧
    ((((tds Fix.dendRow).enum.filter dendPhoneCell).head?).map
      (fun p => jsTrim (textContent p.2))) = some "(111) 555-0000" ∧
    ("(222) 555-9999" : String) ≠ "(111) 555-0000" :=
  ⟨by decide, by decide, by decide⟩

theorem claim_C7_witness :
    ((Server.dpStep Fix.stOpen Fix.dendRow).currentLayover.map Layover.hotelName) =
      some ((((tds Fix.dendRow).enum.filter dendNameCell).head?).elim ""
        (fun p => jsTrim (textContent p.2))) ∧
    ((Server.dpStep Fix.stOpen Fix.dendRow).currentLayover.map Layover.hotelPhone) =
      some ((((tds Fix.dendRow).enum.filter dendPhoneCell).getLast?).elim
        Fix.lay0.hotelPhone (fun p => jsTrim (textContent p.2))) :=
  claim_C7 Fix.stOpen Fix.dendRow Fix.lay0 rfl rfl rfl (by decide) rfl rfl

end CrewSched
